import Mathlib

/-!
Verification of the file-integrity-tracker engine (src/filetrack.py).

Shallow embedding conventions:
  - A filesystem path is a `String`; `os.path.basename` takes the component
    after the last posix separator.
  - The filesystem visible to one event is a function `Path → FileRead`:
    a file is either readable with some byte content, absent (opening raises
    FileNotFoundError), or failing with some other I/O error (opening or
    reading raises a different OSError such as PermissionError).
  - The SHA-256 digest function is abstracted as a parameter
    `H : List Nat → String` (the source streams 4096-byte chunks into
    hashlib.sha256 and hex-encodes; the digest of a file is a function of its
    whole byte content, which is all the engine ever relies on).
  - Wall-clock timestamps (`datetime.now().strftime(...)`) and the observing
    user (`getpass.getuser()`) are inputs of each operation (`t : Nat`,
    `user : String`).
  - The module-level dict `file_data` is an association list
    `List (Path × TrackedFile)`; Python dict assignment is `insert`
    (replace-or-append), `in` / subscript is `lookup`.
  - A Python function that can raise an uncaught exception returns
    `Except Unit _`; `.error ()` is an exception propagating out.
-/

namespace FileTrack

abbrev Path := String

/-- `IGNORED_EXTENSIONS` from src/filetrack.py line 21. -/
def IGNORED_EXTENSIONS : List String :=
  [".swp", ".swo", ".tmp", ".~", ".crdownload", ".part", ".goutputstream"]

/-- Python `str.startswith`: the argument is an initial segment of the
string. -/
def startswith (s t : String) : Bool :=
  t.data.isPrefixOf s.data

/-- Python `str.endswith`: the argument is a final segment of the string. -/
def endswith (s t : String) : Bool :=
  t.data.isSuffixOf s.data

/-- `os.path.basename` on posix: the component after the last separator
(empty when the path ends in a separator). -/
def basename (p : Path) : String :=
  String.mk (p.data.foldl (fun acc c => if c = '/' then [] else acc ++ [c]) [])

/-- `is_valid_file` (src/filetrack.py lines 33-36): reject hidden base names
and paths ending in an ignored extension. -/
def is_valid_file (file_path : Path) : Bool :=
  !startswith (basename file_path) "." &&
    !(IGNORED_EXTENSIONS.any fun ext => endswith file_path ext)

/-- Outcome of opening and reading one file at the moment an event is
processed. -/
inductive FileRead where
  | content (bytes : List Nat)
  | absent
  | ioError
deriving DecidableEq

/-- `calculate_hash` (src/filetrack.py lines 38-49): returns `none` for paths
rejected by `is_valid_file`; otherwise reads the file and digests it; a
FileNotFoundError is caught and turned into `none`; any other I/O error is
not caught and propagates (`.error ()`). -/
def calculate_hash (H : List Nat → String) (fs : Path → FileRead)
    (file_path : Path) : Except Unit (Option String) :=
  if !is_valid_file file_path then
    .ok none
  else
    match fs file_path with
    | .content bytes => .ok (some (H bytes))
    | .absent => .ok none
    | .ioError => .error ()

/-- One element of a `history` list: the dict
`{"timestamp", "hash", "user", "status"}` built at lines 66, 136, 151-156
and 166-171 of src/filetrack.py. -/
structure HistoryEntry where
  timestamp : Nat
  hash : Option String
  user : String
  status : String
deriving DecidableEq, Repr

/-- One value of the `file_data` dict: the dict
`{"timestamp", "user", "hash", "status", "history"}` built at lines 61-67
and 131-137 of src/filetrack.py. -/
structure TrackedFile where
  timestamp : Nat
  user : String
  hash : Option String
  status : String
  history : List HistoryEntry
deriving DecidableEq, Repr

/-- The module-level `file_data` dict, as an association list. -/
abbrev FileData := List (Path × TrackedFile)

/-- Dict membership / subscript read. -/
def lookup (d : FileData) (p : Path) : Option TrackedFile :=
  match d with
  | [] => none
  | (q, f) :: rest => if q = p then some f else lookup rest p

/-- Dict assignment `file_data[file_path] = ...`: replace the existing
binding or append a new one. -/
def insert (d : FileData) (p : Path) (f : TrackedFile) : FileData :=
  match d with
  | [] => [(p, f)]
  | (q, g) :: rest => if q = p then (p, f) :: rest else (q, g) :: insert rest p f

/-- The body of the inner loop of `scan_initial_files`
(src/filetrack.py lines 54-67) for one walked file: if the path passes the
filter, hash it and install a fresh entry with `status = "unchanged"` and a
one-element history. -/
def scan_initial_file (H : List Nat → String) (fs : Path → FileRead)
    (file_path : Path) (t : Nat) (user : String) (d : FileData) :
    Except Unit FileData :=
  if is_valid_file file_path then
    match calculate_hash H fs file_path with
    | .error e => .error e
    | .ok file_hash =>
        .ok (insert d file_path
          { timestamp := t, user := user, hash := file_hash,
            status := "unchanged",
            history := [{ timestamp := t, hash := file_hash, user := user,
                          status := "unchanged" }] })
  else
    .ok d

/-- `FileChangeHandler.on_created` (src/filetrack.py lines 124-139): for a
non-directory trackable path, unconditionally install a fresh entry with
`status = "created"` and a one-element history. -/
def on_created (H : List Nat → String) (fs : Path → FileRead) (isDir : Bool)
    (file_path : Path) (t : Nat) (user : String) (d : FileData) :
    Except Unit FileData :=
  if !isDir && is_valid_file file_path then
    match calculate_hash H fs file_path with
    | .error e => .error e
    | .ok file_hash =>
        .ok (insert d file_path
          { timestamp := t, user := user, hash := file_hash,
            status := "created",
            history := [{ timestamp := t, hash := file_hash, user := user,
                          status := "created" }] })
  else
    .ok d

/-- `FileChangeHandler.on_modified` (src/filetrack.py lines 141-173): for a
non-directory trackable path that is already tracked and whose recomputed
hash differs from the stored one, append the previous state to history,
update the live fields, then append the new state; otherwise leave the store
untouched. The three `let`s mirror the three successive mutations of the
source (lines 151-156, 159-164, 166-171). -/
def on_modified (H : List Nat → String) (fs : Path → FileRead) (isDir : Bool)
    (file_path : Path) (t : Nat) (user : String) (d : FileData) :
    Except Unit FileData :=
  if !isDir && is_valid_file file_path then
    match calculate_hash H fs file_path with
    | .error e => .error e
    | .ok new_hash =>
        match lookup d file_path with
        | none => .ok d
        | some f =>
            if f.hash ≠ new_hash then
              let f1 : TrackedFile :=
                { f with history := f.history ++
                    [{ timestamp := f.timestamp, hash := f.hash,
                       user := f.user, status := "modified" }] }
              let f2 : TrackedFile :=
                { f1 with timestamp := t, user := user, hash := new_hash,
                          status := "modified" }
              let f3 : TrackedFile :=
                { f2 with history := f2.history ++
                    [{ timestamp := t, hash := new_hash, user := user,
                       status := "modified" }] }
              .ok (insert d file_path f3)
            else
              .ok d
  else
    .ok d

/-- One engine operation: a seed step of the initial scan, or a live
creation / modification notification. Each carries the filesystem state,
clock reading and user observed when it is processed. -/
inductive Op where
  | scan (fs : Path → FileRead) (p : Path) (t : Nat) (user : String)
  | create (fs : Path → FileRead) (isDir : Bool) (p : Path) (t : Nat)
      (user : String)
  | modify (fs : Path → FileRead) (isDir : Bool) (p : Path) (t : Nat)
      (user : String)

/-- Dispatch one operation against the store. -/
def applyOp (H : List Nat → String) (d : FileData) : Op → Except Unit FileData
  | .scan fs p t user => scan_initial_file H fs p t user d
  | .create fs isDir p t user => on_created H fs isDir p t user d
  | .modify fs isDir p t user => on_modified H fs isDir p t user d

/-- Run a sequence of operations, stopping at the first uncaught
exception. -/
def runOps (H : List Nat → String) (ops : List Op) (d : FileData) :
    Except Unit FileData :=
  match ops with
  | [] => .ok d
  | op :: rest =>
      match applyOp H d op with
      | .error e => .error e
      | .ok d2 => runOps H rest d2

/-- The fresh record installed by a seed step. -/
def seededFile (file_hash : Option String) (t : Nat) (user : String) :
    TrackedFile :=
  { timestamp := t, user := user, hash := file_hash, status := "unchanged",
    history := [{ timestamp := t, hash := file_hash, user := user,
                  status := "unchanged" }] }

/-- The fresh record installed by a creation notification. -/
def createdFile (file_hash : Option String) (t : Nat) (user : String) :
    TrackedFile :=
  { timestamp := t, user := user, hash := file_hash, status := "created",
    history := [{ timestamp := t, hash := file_hash, user := user,
                  status := "created" }] }

/-- The record produced by a content-changing modification notification on a
file previously in state `f`. -/
def modifiedFile (f : TrackedFile) (new_hash : Option String) (t : Nat)
    (user : String) : TrackedFile :=
  { timestamp := t, user := user, hash := new_hash, status := "modified",
    history := f.history ++
      [{ timestamp := f.timestamp, hash := f.hash, user := f.user,
         status := "modified" },
       { timestamp := t, hash := new_hash, user := user,
         status := "modified" }] }

/-- The `currentHash` field equals the `hash` of the last history element. -/
def hashMatchesHistory (f : TrackedFile) : Prop :=
  ∃ e, f.history.getLast? = some e ∧ e.hash = f.hash

/-- Every tracked record's `hash` field matches its last history entry. -/
def storeInv (d : FileData) : Prop :=
  ∀ p f, lookup d p = some f → hashMatchesHistory f

/-- Every tracked record has a history of odd length (hence non-empty). -/
def oddHistories (d : FileData) : Prop :=
  ∀ p f, lookup d p = some f → f.history.length % 2 = 1

/-! ### Concrete fixtures for witnesses -/

/-- A concrete stand-in digest function for witnesses: the bytes read back as
characters (so the digest of the bytes of "hello" is the string "hello"). -/
def Hc : List Nat → String :=
  fun bytes => String.mk (bytes.map fun n => Char.ofNat n)

/-- The bytes of "hello". -/
def helloBytes : List Nat := [104, 101, 108, 108, 111]

/-- The bytes of "hello world". -/
def helloWorldBytes : List Nat := helloBytes ++ [32, 119, 111, 114, 108, 100]

/-- A filesystem where every file reads as "hello". -/
def fsHello : Path → FileRead := fun _ => .content helloBytes

/-- A filesystem where every file reads as "hello world". -/
def fsHelloWorld : Path → FileRead := fun _ => .content helloWorldBytes

/-- A filesystem where every open raises FileNotFoundError. -/
def fsGone : Path → FileRead := fun _ => .absent

/-- A filesystem where every open raises a non-FileNotFoundError I/O
error. -/
def fsBroken : Path → FileRead := fun _ => .ioError

/-- A store holding one file seeded from "hello" content at time 0. -/
def d1 : FileData :=
  [("a.txt", seededFile (some (Hc helloBytes)) 0 "alice")]

/-- A concrete operation sequence: seed one file, receive a creation
notification for a second, then a content-changing modification of the
first. -/
def opsW : List Op :=
  [.scan fsHello "a.txt" 0 "alice",
   .create fsHello false "b.txt" 1 "alice",
   .modify fsHelloWorld false "a.txt" 2 "alice"]

/-- The store produced by running `opsW` from the empty store. -/
def dW : FileData :=
  match runOps Hc opsW [] with
  | .ok d => d
  | .error _ => []

/-! ### Basic lemmas about the store -/

theorem lookup_insert (d : FileData) (p : Path) (f : TrackedFile) (q : Path) :
    lookup (insert d p f) q = if q = p then some f else lookup d q := by
  induction d with
  | nil =>
      by_cases h : q = p
      · subst h
        simp [insert, lookup]
      · simp [insert, lookup, h, Ne.symm h]
  | cons hd tl ih =>
      obtain ⟨r, g⟩ := hd
      by_cases hrp : r = p
      · subst hrp
        by_cases hq : q = r
        · subst hq
          simp [insert, lookup]
        · simp [insert, lookup, hq, Ne.symm hq]
      · by_cases hq : r = q
        · subst hq
          simp [insert, lookup, hrp]
        · simp [insert, lookup, hrp, hq, ih]

theorem lookup_insert_self (d : FileData) (p : Path) (f : TrackedFile) :
    lookup (insert d p f) p = some f := by
  simp [lookup_insert]

theorem lookup_insert_ne (d : FileData) (p : Path) (f : TrackedFile) (q : Path)
    (h : q ≠ p) : lookup (insert d p f) q = lookup d q := by
  simp [lookup_insert, h]

/-! ### Characterizations of the three operations -/

theorem scan_initial_file_valid (H : List Nat → String) (fs : Path → FileRead)
    (p : Path) (t : Nat) (user : String) (d : FileData) (file_hash : Option String)
    (hval : is_valid_file p = true)
    (hhash : calculate_hash H fs p = .ok file_hash) :
    scan_initial_file H fs p t user d =
      .ok (insert d p (seededFile file_hash t user)) := by
  simp [scan_initial_file, hval, hhash, seededFile]

theorem on_created_valid (H : List Nat → String) (fs : Path → FileRead)
    (p : Path) (t : Nat) (user : String) (d : FileData) (file_hash : Option String)
    (hval : is_valid_file p = true)
    (hhash : calculate_hash H fs p = .ok file_hash) :
    on_created H fs false p t user d =
      .ok (insert d p (createdFile file_hash t user)) := by
  simp [on_created, hval, hhash, createdFile]

theorem on_modified_changed (H : List Nat → String) (fs : Path → FileRead)
    (p : Path) (t : Nat) (user : String) (d : FileData) (f : TrackedFile)
    (new_hash : Option String)
    (hval : is_valid_file p = true)
    (hhash : calculate_hash H fs p = .ok new_hash)
    (hf : lookup d p = some f)
    (hne : f.hash ≠ new_hash) :
    on_modified H fs false p t user d =
      .ok (insert d p (modifiedFile f new_hash t user)) := by
  simp [on_modified, hval, hhash, hf, hne, modifiedFile]

theorem on_modified_noop (H : List Nat → String) (fs : Path → FileRead)
    (isDir : Bool) (p : Path) (t : Nat) (user : String) (d : FileData)
    (new_hash : Option String)
    (hhash : calculate_hash H fs p = .ok new_hash)
    (h : lookup d p = none ∨ ∃ f, lookup d p = some f ∧ f.hash = new_hash) :
    on_modified H fs isDir p t user d = .ok d := by
  unfold on_modified
  by_cases hc : (!isDir && is_valid_file p) = true
  · rw [if_pos hc, hhash]
    rcases h with h | ⟨f, hf, hfh⟩
    · rw [h]
    · rw [hf]
      simp [hfh]
  · rw [if_neg hc]

/-- Shape analysis of a seed step that returns normally: either the path was
filtered out (store untouched) or a fresh seeded record was installed. -/
theorem scan_initial_file_cases (H : List Nat → String) (fs : Path → FileRead)
    (p : Path) (t : Nat) (user : String) (d d' : FileData)
    (h : scan_initial_file H fs p t user d = .ok d') :
    d' = d ∨ ∃ fh, d' = insert d p (seededFile fh t user) := by
  unfold scan_initial_file at h
  split at h
  · split at h
    · exact Except.noConfusion h
    · injection h with h2
      exact Or.inr ⟨_, h2.symm⟩
  · injection h with h2
    exact Or.inl h2.symm

/-- Shape analysis of a creation notification that returns normally. -/
theorem on_created_cases (H : List Nat → String) (fs : Path → FileRead)
    (isDir : Bool) (p : Path) (t : Nat) (user : String) (d d' : FileData)
    (h : on_created H fs isDir p t user d = .ok d') :
    d' = d ∨ ∃ fh, d' = insert d p (createdFile fh t user) := by
  unfold on_created at h
  split at h
  · split at h
    · exact Except.noConfusion h
    · injection h with h2
      exact Or.inr ⟨_, h2.symm⟩
  · injection h with h2
    exact Or.inl h2.symm

/-- Shape analysis of a modification notification that returns normally:
either a no-op, or the tracked record at `p` was replaced by its
`modifiedFile` update. -/
theorem on_modified_cases (H : List Nat → String) (fs : Path → FileRead)
    (isDir : Bool) (p : Path) (t : Nat) (user : String) (d d' : FileData)
    (h : on_modified H fs isDir p t user d = .ok d') :
    d' = d ∨ ∃ f nh, lookup d p = some f ∧ f.hash ≠ nh ∧
      d' = insert d p (modifiedFile f nh t user) := by
  by_cases hc : (!isDir && is_valid_file p) = true
  · cases hm : calculate_hash H fs p with
    | error e =>
        unfold on_modified at h
        rw [if_pos hc, hm] at h
        exact Except.noConfusion h
    | ok nh =>
        cases hl : lookup d p with
        | none =>
            rw [on_modified_noop H fs isDir p t user d nh hm (Or.inl hl)] at h
            injection h with h2
            exact Or.inl h2.symm
        | some f =>
            by_cases hne : f.hash = nh
            · have hex : lookup d p = none ∨
                  ∃ g, lookup d p = some g ∧ g.hash = nh := Or.inr ⟨f, hl, hne⟩
              rw [on_modified_noop H fs isDir p t user d nh hm hex] at h
              injection h with h2
              exact Or.inl h2.symm
            · obtain ⟨hnd, hval⟩ := Bool.and_eq_true _ _ |>.mp hc
              have hdir : isDir = false := by
                cases isDir
                · rfl
                · exact absurd hnd (by simp)
              subst hdir
              rw [on_modified_changed H fs p t user d f nh hval hm hl hne] at h
              injection h with h2
              exact Or.inr ⟨f, nh, rfl, hne, h2.symm⟩
  · unfold on_modified at h
    rw [if_neg hc] at h
    injection h with h2
    exact Or.inl h2.symm

/-! ### Invariant preservation -/

theorem storeInv_insert (d : FileData) (p : Path) (f : TrackedFile)
    (hd : storeInv d) (hf : hashMatchesHistory f) : storeInv (insert d p f) := by
  intro q g hg
  rw [lookup_insert] at hg
  by_cases h : q = p
  · rw [if_pos h] at hg
    injection hg with hg2
    exact hg2 ▸ hf
  · rw [if_neg h] at hg
    exact hd q g hg

theorem oddHistories_insert (d : FileData) (p : Path) (f : TrackedFile)
    (hd : oddHistories d) (hf : f.history.length % 2 = 1) :
    oddHistories (insert d p f) := by
  intro q g hg
  rw [lookup_insert] at hg
  by_cases h : q = p
  · rw [if_pos h] at hg
    injection hg with hg2
    exact hg2 ▸ hf
  · rw [if_neg h] at hg
    exact hd q g hg

theorem hashMatchesHistory_seeded (fh : Option String) (t : Nat)
    (user : String) : hashMatchesHistory (seededFile fh t user) :=
  ⟨_, rfl, rfl⟩

theorem hashMatchesHistory_created (fh : Option String) (t : Nat)
    (user : String) : hashMatchesHistory (createdFile fh t user) :=
  ⟨_, rfl, rfl⟩

theorem hashMatchesHistory_modified (f : TrackedFile) (nh : Option String)
    (t : Nat) (user : String) : hashMatchesHistory (modifiedFile f nh t user) := by
  refine ⟨({ timestamp := t, hash := nh, user := user,
             status := "modified" } : HistoryEntry), ?_, rfl⟩
  simp only [modifiedFile]
  rw [List.getLast?_append_cons]
  rfl

theorem applyOp_storeInv (H : List Nat → String) (d d' : FileData) (op : Op)
    (hd : storeInv d) (h : applyOp H d op = .ok d') : storeInv d' := by
  cases op with
  | scan fs p t user =>
      rcases scan_initial_file_cases H fs p t user d d' h with h2 | ⟨fh, h2⟩
      · exact h2 ▸ hd
      · exact h2 ▸ storeInv_insert d p _ hd (hashMatchesHistory_seeded fh t user)
  | create fs isDir p t user =>
      rcases on_created_cases H fs isDir p t user d d' h with h2 | ⟨fh, h2⟩
      · exact h2 ▸ hd
      · exact h2 ▸ storeInv_insert d p _ hd (hashMatchesHistory_created fh t user)
  | modify fs isDir p t user =>
      rcases on_modified_cases H fs isDir p t user d d' h with
        h2 | ⟨f, nh, _, _, h2⟩
      · exact h2 ▸ hd
      · exact h2 ▸ storeInv_insert d p _ hd (hashMatchesHistory_modified f nh t user)

theorem applyOp_oddHistories (H : List Nat → String) (d d' : FileData)
    (op : Op) (hd : oddHistories d) (h : applyOp H d op = .ok d') :
    oddHistories d' := by
  cases op with
  | scan fs p t user =>
      rcases scan_initial_file_cases H fs p t user d d' h with h2 | ⟨fh, h2⟩
      · exact h2 ▸ hd
      · exact h2 ▸ oddHistories_insert d p _ hd (by simp [seededFile])
  | create fs isDir p t user =>
      rcases on_created_cases H fs isDir p t user d d' h with h2 | ⟨fh, h2⟩
      · exact h2 ▸ hd
      · exact h2 ▸ oddHistories_insert d p _ hd (by simp [createdFile])
  | modify fs isDir p t user =>
      rcases on_modified_cases H fs isDir p t user d d' h with
        h2 | ⟨f, nh, hf, _, h2⟩
      · exact h2 ▸ hd
      · refine h2 ▸ oddHistories_insert d p _ hd ?_
        have hodd := hd p f hf
        simp [modifiedFile]
        omega

theorem runOps_storeInv (H : List Nat → String) (ops : List Op)
    (d d' : FileData) (hd : storeInv d) (h : runOps H ops d = .ok d') :
    storeInv d' := by
  induction ops generalizing d with
  | nil =>
      unfold runOps at h
      injection h with h2
      exact h2 ▸ hd
  | cons op rest ih =>
      unfold runOps at h
      split at h
      · exact Except.noConfusion h
      · exact ih _ (applyOp_storeInv H d _ op hd (by assumption)) h

theorem runOps_oddHistories (H : List Nat → String) (ops : List Op)
    (d d' : FileData) (hd : oddHistories d) (h : runOps H ops d = .ok d') :
    oddHistories d' := by
  induction ops generalizing d with
  | nil =>
      unfold runOps at h
      injection h with h2
      exact h2 ▸ hd
  | cons op rest ih =>
      unfold runOps at h
      split at h
      · exact Except.noConfusion h
      · exact ih _ (applyOp_oddHistories H d _ op hd (by assumption)) h

/-! ### Claim theorems -/

/-- C1: a modify notification on a trackable, non-directory, already-tracked
path whose recomputed fingerprint differs from the stored hash appends
exactly two modified-tagged history entries — first the previous
hash/timestamp/user, then the new ones — and updates the live fields to
`status = "modified"` and `currentHash = new fingerprint`. -/
theorem C1_modify_appends_pre_and_post (H : List Nat → String)
    (fs : Path → FileRead) (p : Path) (t : Nat) (user : String) (d : FileData)
    (f : TrackedFile) (new_hash : Option String)
    (hval : is_valid_file p = true)
    (hhash : calculate_hash H fs p = .ok new_hash)
    (hf : lookup d p = some f)
    (hne : f.hash ≠ new_hash) :
    ∃ d2, on_modified H fs false p t user d = .ok d2 ∧
      ∃ f2, lookup d2 p = some f2 ∧
        f2.history = f.history ++
          [{ timestamp := f.timestamp, hash := f.hash, user := f.user,
             status := "modified" },
           { timestamp := t, hash := new_hash, user := user,
             status := "modified" }] ∧
        f2.history.length = f.history.length + 2 ∧
        f2.status = "modified" ∧
        f2.hash = new_hash := by
  refine ⟨insert d p (modifiedFile f new_hash t user),
    on_modified_changed H fs p t user d f new_hash hval hhash hf hne,
    modifiedFile f new_hash t user, lookup_insert_self d p _, rfl, ?_, rfl, rfl⟩
  simp [modifiedFile]

/-- Witness for C1: after one seed ("hello" at time 0) and one real
modification ("hello world" at time 1), the history has length 3 and the
last two entries hold the pre-image and post-image digests. -/
theorem C1_witness :
    is_valid_file "a.txt" = true ∧
    lookup d1 "a.txt" = some (seededFile (some (Hc helloBytes)) 0 "alice") ∧
    (some (Hc helloBytes) : Option String) ≠ some (Hc helloWorldBytes) ∧
    ∃ d2, on_modified Hc fsHelloWorld false "a.txt" 1 "alice" d1 = .ok d2 ∧
      ∃ f2, lookup d2 "a.txt" = some f2 ∧
        f2.history.length = 3 ∧
        f2.status = "modified" ∧
        f2.hash = some (Hc helloWorldBytes) ∧
        f2.history =
          (seededFile (some (Hc helloBytes)) 0 "alice").history ++
          [{ timestamp := 0, hash := some (Hc helloBytes), user := "alice",
             status := "modified" },
           { timestamp := 1, hash := some (Hc helloWorldBytes), user := "alice",
             status := "modified" }] := by
  refine ⟨rfl, rfl, by decide, ?_⟩
  obtain ⟨d2, hd2, f2, hf2, hhist, hlen, hstat, hhash2⟩ :=
    C1_modify_appends_pre_and_post Hc fsHelloWorld "a.txt" 1 "alice" d1
      (seededFile (some (Hc helloBytes)) 0 "alice") (some (Hc helloWorldBytes))
      rfl rfl rfl (by decide)
  exact ⟨d2, hd2, f2, hf2, by rw [hlen]; rfl, hstat, hhash2, hhist⟩

/-- C2: a modify notification whose recomputed fingerprint equals the stored
hash, or whose path is not tracked, leaves the store completely unchanged. -/
theorem C2_modify_noop (H : List Nat → String) (fs : Path → FileRead)
    (isDir : Bool) (p : Path) (t : Nat) (user : String) (d : FileData)
    (new_hash : Option String)
    (hhash : calculate_hash H fs p = .ok new_hash)
    (h : lookup d p = none ∨ ∃ f, lookup d p = some f ∧ f.hash = new_hash) :
    on_modified H fs isDir p t user d = .ok d :=
  on_modified_noop H fs isDir p t user d new_hash hhash h

/-- Witness for C2: a duplicate notification with unchanged content on a
tracked file, and a notification on an untracked path, are both no-ops. -/
theorem C2_witness :
    calculate_hash Hc fsHello "a.txt" = .ok (some (Hc helloBytes)) ∧
    lookup d1 "a.txt" = some (seededFile (some (Hc helloBytes)) 0 "alice") ∧
    on_modified Hc fsHello false "a.txt" 5 "bob" d1 = .ok d1 ∧
    lookup ([] : FileData) "c.txt" = none ∧
    on_modified Hc fsHello false "c.txt" 5 "bob" [] = .ok [] := by
  refine ⟨rfl, rfl, ?_, rfl, ?_⟩
  · exact C2_modify_noop Hc fsHello false "a.txt" 5 "bob" d1
      (some (Hc helloBytes)) rfl (Or.inr ⟨_, rfl, rfl⟩)
  · exact C2_modify_noop Hc fsHello false "c.txt" 5 "bob" []
      (some (Hc helloBytes)) rfl (Or.inl rfl)

/-- C3: after every successfully completed sequence of seed, create and
modify operations starting from the empty store, every tracked record's
`currentHash` (`hash` field) equals the `hash` of the last element of its
`history`. -/
theorem C3_currentHash_matches_last_history (H : List Nat → String)
    (ops : List Op) (d : FileData) (h : runOps H ops [] = .ok d) :
    ∀ p f, lookup d p = some f →
      ∃ e, f.history.getLast? = some e ∧ e.hash = f.hash := by
  have hinv : storeInv d :=
    runOps_storeInv H ops [] d (fun p f hf => by simp [lookup] at hf) h
  exact hinv

/-- Witness for C3: the invariant holds after a concrete seed + create +
modify run. -/
theorem C3_witness :
    runOps Hc opsW [] = .ok dW ∧
    ∀ p f, lookup dW p = some f →
      ∃ e, f.history.getLast? = some e ∧ e.hash = f.hash :=
  ⟨rfl, C3_currentHash_matches_last_history Hc opsW dW rfl⟩

/-- C4: a creation notification on a trackable, non-directory path
unconditionally (re)initializes the entry with `status = "created"`, the
fresh fingerprint and a one-element history, replacing any previously stored
entry; all other paths are untouched. -/
theorem C4_create_reinitializes (H : List Nat → String) (fs : Path → FileRead)
    (p : Path) (t : Nat) (user : String) (d : FileData)
    (file_hash : Option String)
    (hval : is_valid_file p = true)
    (hhash : calculate_hash H fs p = .ok file_hash) :
    ∃ d2, on_created H fs false p t user d = .ok d2 ∧
      lookup d2 p = some (createdFile file_hash t user) ∧
      (createdFile file_hash t user).status = "created" ∧
      (createdFile file_hash t user).hash = file_hash ∧
      (createdFile file_hash t user).history =
        [{ timestamp := t, hash := file_hash, user := user,
           status := "created" }] ∧
      ∀ q, q ≠ p → lookup d2 q = lookup d q :=
  ⟨insert d p (createdFile file_hash t user),
    on_created_valid H fs p t user d file_hash hval hhash,
    lookup_insert_self d p _, rfl, rfl, rfl,
    fun q hq => lookup_insert_ne d p _ q hq⟩

/-- Witness for C4: a creation notification on an already-tracked path
replaces the old entry (seeded history discarded, fresh one-element
history). -/
theorem C4_witness :
    is_valid_file "a.txt" = true ∧
    lookup d1 "a.txt" = some (seededFile (some (Hc helloBytes)) 0 "alice") ∧
    (∃ d2, on_created Hc fsHelloWorld false "a.txt" 3 "bob" d1 = .ok d2 ∧
      lookup d2 "a.txt" = some (createdFile (some (Hc helloWorldBytes)) 3 "bob") ∧
      (createdFile (some (Hc helloWorldBytes)) 3 "bob").status = "created" ∧
      (createdFile (some (Hc helloWorldBytes)) 3 "bob").hash =
        some (Hc helloWorldBytes) ∧
      (createdFile (some (Hc helloWorldBytes)) 3 "bob").history =
        [{ timestamp := 3, hash := some (Hc helloWorldBytes), user := "bob",
           status := "created" }] ∧
      ∀ q, q ≠ "a.txt" → lookup d2 q = lookup d1 q) :=
  ⟨rfl, rfl,
    C4_create_reinitializes Hc fsHelloWorld "a.txt" 3 "bob" d1
      (some (Hc helloWorldBytes)) rfl rfl⟩

/-- C5: under the default ignored-extension configuration, `is_valid_file`
returns false exactly when the base name starts with a leading dot or the
path's suffix matches an entry of the ignored-extension set. -/
theorem C5_filter_characterization (p : Path) :
    is_valid_file p = false ↔
      (startswith (basename p) "." = true ∨
        ∃ ext ∈ IGNORED_EXTENSIONS, endswith p ext = true) := by
  simp [is_valid_file, List.any_eq_true]
  cases hs : startswith (basename p) "." with
  | true => simp
  | false => simp

/-- C6 counterexample: `calculate_hash` does apply path filtering. Two paths
with identical readability and byte content ("hello" everywhere) get
different results: the ignored-extension path hashes to `none`, the other to
the digest. -/
theorem C6_counterexample :
    fsHello "b.tmp" = fsHello "a.txt" ∧
    calculate_hash Hc fsHello "b.tmp" ≠ calculate_hash Hc fsHello "a.txt" := by
  refine ⟨rfl, fun h => ?_⟩
  have hb : calculate_hash Hc fsHello "b.tmp" = .ok none := rfl
  have ha : calculate_hash Hc fsHello "a.txt" = .ok (some (Hc helloBytes)) := rfl
  rw [hb, ha] at h
  injection h with h2
  exact Option.noConfusion h2

/-- C6 (amended): `calculate_hash` itself applies the Path Filter — it
returns `none` for every filter-rejected path regardless of the file's
readability or content; for filter-accepted paths its result depends only on
the file's readability and byte content. -/
theorem C6_amended_filter_applied (H : List Nat → String)
    (fs fs2 : Path → FileRead) (p : Path) :
    (is_valid_file p = false → calculate_hash H fs p = .ok none) ∧
    (fs2 p = fs p → calculate_hash H fs2 p = calculate_hash H fs p) := by
  constructor
  · intro hv
    simp [calculate_hash, hv]
  · intro hfs
    simp [calculate_hash, hfs]

/-- Witness for the amended C6, at a filter-rejected path with readable
content. -/
theorem C6_amended_witness :
    calculate_hash Hc fsHello "b.tmp" = .ok none :=
  (C6_amended_filter_applied Hc fsHello fsHello "b.tmp").1 rfl

/-- C7 counterexample: an I/O failure other than file-not-found is not
recovered — `calculate_hash` propagates the exception (`.error ()`) on a
trackable path whose open fails with a non-FileNotFoundError. -/
theorem C7_counterexample :
    is_valid_file "a.txt" = true ∧
    fsBroken "a.txt" = .ioError ∧
    calculate_hash Hc fsBroken "a.txt" = .error () :=
  ⟨rfl, rfl, rfl⟩

/-- C7 (amended): only a file-not-found failure is recovered locally as a
null fingerprint; any other I/O failure is uncaught and propagates out of
the calculator. -/
theorem C7_amended_only_absent_recovered (H : List Nat → String)
    (fs : Path → FileRead) (p : Path)
    (hval : is_valid_file p = true) :
    (fs p = .absent → calculate_hash H fs p = .ok none) ∧
    (fs p = .ioError → calculate_hash H fs p = .error ()) := by
  constructor
  · intro hfs
    simp [calculate_hash, hval, hfs]
  · intro hfs
    simp [calculate_hash, hval, hfs]

/-- Witness for the amended C7: a vanished file yields `none`, a
permission-style failure yields an exception. -/
theorem C7_amended_witness :
    calculate_hash Hc fsGone "a.txt" = .ok none ∧
    calculate_hash Hc fsBroken "a.txt" = .error () :=
  ⟨(C7_amended_only_absent_recovered Hc fsGone "a.txt" rfl).1 rfl,
   (C7_amended_only_absent_recovered Hc fsBroken "a.txt" rfl).2 rfl⟩

/-- C8 counterexample: a content-changing modification processed at the same
clock reading as the file's stored timestamp (possible in the source, whose
timestamps have 1-second strftime resolution) appends two entries with
*equal* timestamps, refuting strict increase. -/
theorem C8_counterexample :
    (seededFile (some (Hc helloBytes)) 0 "alice").hash ≠
      some (Hc helloWorldBytes) ∧
    ∃ d2 f2 e1 e2,
      on_modified Hc fsHelloWorld false "a.txt" 0 "alice" d1 = .ok d2 ∧
      lookup d2 "a.txt" = some f2 ∧
      f2.history =
        (seededFile (some (Hc helloBytes)) 0 "alice").history ++ [e1, e2] ∧
      e1.hash ≠ e2.hash ∧
      e1.timestamp = e2.timestamp ∧
      ¬ e1.timestamp < e2.timestamp := by
  refine ⟨by decide,
    insert d1 "a.txt"
      (modifiedFile (seededFile (some (Hc helloBytes)) 0 "alice")
        (some (Hc helloWorldBytes)) 0 "alice"),
    modifiedFile (seededFile (some (Hc helloBytes)) 0 "alice")
      (some (Hc helloWorldBytes)) 0 "alice",
    { timestamp := 0, hash := some (Hc helloBytes), user := "alice",
      status := "modified" },
    { timestamp := 0, hash := some (Hc helloWorldBytes), user := "alice",
      status := "modified" },
    ?_, rfl, rfl, by decide, rfl, by decide⟩
  exact on_modified_changed Hc fsHelloWorld "a.txt" 0 "alice" d1
    (seededFile (some (Hc helloBytes)) 0 "alice") (some (Hc helloWorldBytes))
    rfl rfl rfl (by decide)

/-- C8 (amended): on a content-changing modification the two newly appended
entries have differing hashes and carry the stored timestamp and the
notification's timestamp in that order; the timestamps are therefore
non-decreasing whenever the clock has not gone backwards, and strictly
increasing exactly when the notification's clock reading is strictly later
than the stored timestamp (they coincide when both fall within the same
second of the source's 1-second timestamp resolution). -/
theorem C8_bracket_timestamps (H : List Nat → String)
    (fs : Path → FileRead) (p : Path) (t : Nat) (user : String) (d : FileData)
    (f : TrackedFile) (new_hash : Option String)
    (hval : is_valid_file p = true)
    (hhash : calculate_hash H fs p = .ok new_hash)
    (hf : lookup d p = some f)
    (hne : f.hash ≠ new_hash) :
    ∃ d2 f2 e1 e2, on_modified H fs false p t user d = .ok d2 ∧
      lookup d2 p = some f2 ∧
      f2.history = f.history ++ [e1, e2] ∧
      e1.hash ≠ e2.hash ∧
      e1.timestamp = f.timestamp ∧
      e2.timestamp = t ∧
      (f.timestamp ≤ t → e1.timestamp ≤ e2.timestamp) ∧
      (f.timestamp < t → e1.timestamp < e2.timestamp) :=
  ⟨insert d p (modifiedFile f new_hash t user),
    modifiedFile f new_hash t user,
    { timestamp := f.timestamp, hash := f.hash, user := f.user,
      status := "modified" },
    { timestamp := t, hash := new_hash, user := user, status := "modified" },
    on_modified_changed H fs p t user d f new_hash hval hhash hf hne,
    lookup_insert_self d p _, rfl, hne, rfl, rfl,
    fun hle => hle, fun hlt => hlt⟩

/-- Witness for the amended C8, at the concrete seed-then-modify run with
the clock advanced by one unit. -/
theorem C8_witness :
    (seededFile (some (Hc helloBytes)) 0 "alice").hash ≠
      some (Hc helloWorldBytes) ∧
    ∃ d2 f2 e1 e2,
      on_modified Hc fsHelloWorld false "a.txt" 1 "alice" d1 = .ok d2 ∧
      lookup d2 "a.txt" = some f2 ∧
      f2.history =
        (seededFile (some (Hc helloBytes)) 0 "alice").history ++ [e1, e2] ∧
      e1.hash ≠ e2.hash ∧
      e1.timestamp = (seededFile (some (Hc helloBytes)) 0 "alice").timestamp ∧
      e2.timestamp = 1 ∧
      ((seededFile (some (Hc helloBytes)) 0 "alice").timestamp ≤ 1 →
        e1.timestamp ≤ e2.timestamp) ∧
      ((seededFile (some (Hc helloBytes)) 0 "alice").timestamp < 1 →
        e1.timestamp < e2.timestamp) :=
  ⟨by decide,
    C8_bracket_timestamps Hc fsHelloWorld "a.txt" 1 "alice" d1
      (seededFile (some (Hc helloBytes)) 0 "alice") (some (Hc helloWorldBytes))
      rfl rfl rfl (by decide)⟩

/-- C9: after every successfully completed sequence of seed, create and
modify operations starting from the empty store, every tracked record's
history length is odd, and in particular its history is never empty. -/
theorem C9_history_length_odd (H : List Nat → String) (ops : List Op)
    (d : FileData) (h : runOps H ops [] = .ok d) :
    ∀ p f, lookup d p = some f →
      f.history.length % 2 = 1 ∧ f.history ≠ [] := by
  have hinv : oddHistories d :=
    runOps_oddHistories H ops [] d (fun p f hf => by simp [lookup] at hf) h
  intro p f hf
  refine ⟨hinv p f hf, fun hnil => ?_⟩
  have hodd := hinv p f hf
  rw [hnil] at hodd
  simp at hodd

/-- Witness for C9: odd histories after a concrete seed + create + modify
run. -/
theorem C9_witness :
    runOps Hc opsW [] = .ok dW ∧
    ∀ p f, lookup dW p = some f →
      f.history.length % 2 = 1 ∧ f.history ≠ [] :=
  ⟨rfl, C9_history_length_odd Hc opsW dW rfl⟩

/-- C10: a modify notification on a tracked path whose file has become
unreadable (fingerprint `none`) while the stored hash is non-null is
recorded as an ordinary modification: status becomes "modified", the stored
hash becomes `none`, two entries are appended, and the last history entry's
hash is `none`. -/
theorem C10_vanished_file_is_modification (H : List Nat → String)
    (fs : Path → FileRead) (p : Path) (t : Nat) (user : String) (d : FileData)
    (f : TrackedFile) (h0 : String)
    (hval : is_valid_file p = true)
    (hhash : calculate_hash H fs p = .ok none)
    (hf : lookup d p = some f)
    (hstored : f.hash = some h0) :
    ∃ d2 f2, on_modified H fs false p t user d = .ok d2 ∧
      lookup d2 p = some f2 ∧
      f2.status = "modified" ∧
      f2.hash = none ∧
      f2.history = f.history ++
        [{ timestamp := f.timestamp, hash := f.hash, user := f.user,
           status := "modified" },
         { timestamp := t, hash := none, user := user,
           status := "modified" }] ∧
      ∃ e, f2.history.getLast? = some e ∧ e.hash = none := by
  have hne : f.hash ≠ (none : Option String) := by
    rw [hstored]
    exact fun hx => Option.noConfusion hx
  refine ⟨insert d p (modifiedFile f none t user), modifiedFile f none t user,
    on_modified_changed H fs p t user d f none hval hhash hf hne,
    lookup_insert_self d p _, rfl, rfl, rfl, ?_⟩
  obtain ⟨e, he1, he2⟩ := hashMatchesHistory_modified f none t user
  exact ⟨e, he1, he2.trans rfl⟩

/-- Witness for C10: a tracked "hello" file vanishes before the modify
notification is processed; the engine records a modification to the null
fingerprint. -/
theorem C10_witness :
    calculate_hash Hc fsGone "a.txt" = .ok none ∧
    lookup d1 "a.txt" = some (seededFile (some (Hc helloBytes)) 0 "alice") ∧
    ∃ d2 f2, on_modified Hc fsGone false "a.txt" 7 "alice" d1 = .ok d2 ∧
      lookup d2 "a.txt" = some f2 ∧
      f2.status = "modified" ∧
      f2.hash = none ∧
      f2.history =
        (seededFile (some (Hc helloBytes)) 0 "alice").history ++
        [{ timestamp := 0, hash := some (Hc helloBytes), user := "alice",
           status := "modified" },
         { timestamp := 7, hash := none, user := "alice",
           status := "modified" }] ∧
      ∃ e, f2.history.getLast? = some e ∧ e.hash = none :=
  ⟨rfl, rfl,
    C10_vanished_file_is_modification Hc fsGone "a.txt" 7 "alice" d1
      (seededFile (some (Hc helloBytes)) 0 "alice") (Hc helloBytes)
      rfl rfl rfl rfl⟩

end FileTrack
